import Mathlib

/-
Verification of the gupdeps dependency-update analyzer core.

The development shallowly embeds the Go sources of the repository:
  - the commit classifier (CommitAnalyzer.AnalyzeCommits and its three
    format helpers),
  - the git range extractor built on the embedded history-graph library
    (GitOperations.GetCommitsBetweenVersions, getCommitLog,
    getCommitsBetweenHashes, getRecentCommits, resolveVersionRef),
  - the repository locator (GitOperations.determineRepositoryURL).

Go strings are Lean Strings; the case-insensitive regular expressions of
the classifier are alternations of literal keywords, so they are embedded
as case-insensitive substring search.  The git backend (go-git) is
abstracted as a record of the capability functions the source calls:
ResolveRevision, CommitObject, Log (the iteration order of the walk,
newest first) and Head.  Fallible Go calls return Except or Option.
-/

namespace Gupdeps

deriving instance DecidableEq for Except

/-- Lowercased character sequence of a string.  Models the effect of the
Go regular-expression flag (?i) on matching: every keyword of the
classifier is an ASCII literal, so case-insensitive matching is matching
between lowercased strings. -/
def lowerChars (s : String) : List Char := s.toList.map Char.toLower

/-- Boolean test that the first character list is an initial segment of
the second.  Models Go strings.HasPrefix on the character level. -/
def leadsWith : List Char → List Char → Bool
  | [], _ => true
  | _ :: _, [] => false
  | a :: as, b :: bs => a = b && leadsWith as bs

/-- Boolean test that the needle occurs contiguously somewhere in the
haystack.  Models a Go regexp search for a literal (MatchString finds a
match anywhere in the subject). -/
def occursIn (needle : List Char) : List Char → Bool
  | [] => needle.isEmpty
  | b :: bs => leadsWith needle (b :: bs) || occursIn needle bs

/-- Split a character list at every occurrence of the separator.  Models
Go strings.Split for a one-character separator: Split never returns an
empty list, and adjacent separators produce empty fields. -/
def splitOnChar (sep : Char) : List Char → List (List Char)
  | [] => [[]]
  | c :: rest =>
    match splitOnChar sep rest with
    | [] => [[c]]
    | h :: t => if c = sep then [] :: h :: t else (c :: h) :: t

/-- models.CommitInfo (internal/models/types.go).  The Date field is a
time.Time the analyzed code never inspects; it is carried as an opaque
string. -/
structure CommitInfo where
  hash : String
  message : String
  date : String
deriving DecidableEq

/-- models.Dependency (internal/models/types.go). -/
structure Dependency where
  name : String
  currentVersion : String
  latestVersion : String
  updateNeeded : Bool
deriving DecidableEq

/-- The go-git repository capabilities used by GitOperations, abstracted
as pure functions:
  - resolve: repo.ResolveRevision, mapping a revision spelling to a
    commit hash, none when the revision does not resolve;
  - objects: repo.CommitObject, looking a hash up in the object store;
  - log: repo.Log followed by ForEach, i.e. the commit sequence the walk
    starting at a given hash visits, in visit order (newest first), none
    when obtaining the log fails;
  - head: repo.Head, the hash the current head reference points at, none
    when reading it fails. -/
structure Repo where
  resolve : String → Option String
  objects : String → Option CommitInfo
  log : String → Option (List CommitInfo)
  head : Option String

/-- The source tag of the spec data model: it records which branch of
getCommitLog produced the record sequence.  The Go function returns the
bare record slice; the tag reifies the branch taken so that statements
about the exact-range path and the recent-fallback path can be told
apart. -/
inductive RangeTag
  | exactRange
  | recentFallback
deriving DecidableEq

/-- RangeResult of the spec data model: the extracted records together
with the source tag of the branch that produced them. -/
structure RangeResult where
  records : List CommitInfo
  tag : RangeTag
deriving DecidableEq

/-- The reference spellings resolveVersionRef tries, in source order
(part_002 lines 138-143). -/
def versionRefs (versionStr : String) : List String :=
  ["refs/tags/" ++ versionStr, "refs/tags/v" ++ versionStr,
   versionStr, "v" ++ versionStr]

/-- The loop of resolveVersionRef (part_002 lines 145-151): try each
spelling with repo.ResolveRevision and return the first hash that
resolves. -/
def tryRefs (repo : Repo) : List String → Option String
  | [] => none
  | ref :: rest =>
    match repo.resolve ref with
    | some hash => some hash
    | none => tryRefs repo rest

/-- GitOperations.resolveVersionRef (part_002 lines 136-154).  none
models the "could not resolve version reference" error return. -/
def resolveVersionRef (repo : Repo) (versionStr : String) : Option String :=
  tryRefs repo (versionRefs versionStr)

/-- The ForEach body of getCommitsBetweenHashes (part_002 lines 218-237):
stop on reaching the from-commit (boundary, exclusive), stop on having
processed maxCommits records, otherwise collect the record and continue.
Both stop conditions are reported through the error channel and then
treated as expected, so the collected records are returned. -/
def collectBetween (fromHash : String) (maxCommits : Nat) :
    Nat → List CommitInfo → List CommitInfo
  | _, [] => []
  | processed, c :: rest =>
    if c.hash = fromHash then []
    else if maxCommits ≤ processed then []
    else c :: collectBetween fromHash maxCommits (processed + 1) rest

/-- GitOperations.getCommitsBetweenHashes (part_002 lines 189-246): look
up both commit objects, walk the log starting from the to-commit, and
collect until the from-commit or the cap of 200 records is reached. -/
def getCommitsBetweenHashes (repo : Repo) (fromHash toHash : String) :
    Except String (List CommitInfo) :=
  match repo.objects fromHash with
  | none => .error "failed to get from commit"
  | some fromCommit =>
    match repo.objects toHash with
    | none => .error "failed to get to commit"
    | some toCommit =>
      match repo.log toCommit.hash with
      | none => .error "failed to get commit log"
      | some entries => .ok (collectBetween fromCommit.hash 200 0 entries)

/-- The ForEach body of getRecentCommits (part_002 lines 267-281): stop
once limit records have been processed, otherwise collect and continue. -/
def collectLimited (limit : Nat) : Nat → List CommitInfo → List CommitInfo
  | _, [] => []
  | processed, c :: rest =>
    if limit ≤ processed then []
    else c :: collectLimited limit (processed + 1) rest

/-- GitOperations.getRecentCommits (part_002 lines 249-289): read the
head reference and collect at most limit records of the walk starting
there. -/
def getRecentCommits (repo : Repo) (limit : Nat) :
    Except String (List CommitInfo) :=
  match repo.head with
  | none => .error "failed to get HEAD reference"
  | some headHash =>
    match repo.log headHash with
    | none => .error "failed to get commit log"
    | some entries => .ok (collectLimited limit 0 entries)

/-- GitOperations.getCommitLog (part_002 lines 157-186): resolve both
version strings; on any resolution miss fall back to the 300 most recent
commits from head; otherwise walk between the two hashes, falling back
the same way if that walk returns an error.  The RangeTag records which
branch produced the records (the Go function returns the bare slice). -/
def getCommitLog (repo : Repo) (dep : Dependency) :
    Except String RangeResult :=
  match resolveVersionRef repo dep.currentVersion,
        resolveVersionRef repo dep.latestVersion with
  | some currentHash, some latestHash =>
    (match getCommitsBetweenHashes repo currentHash latestHash with
     | .ok commits => .ok ⟨commits, .exactRange⟩
     | .error _ =>
       (getRecentCommits repo 300).map (fun l => ⟨l, .recentFallback⟩))
  | _, _ =>
    (getRecentCommits repo 300).map (fun l => ⟨l, .recentFallback⟩)

/-- GitOperations.GetCommitsBetweenVersions (part_002 lines 30-64): if
the two version strings are equal, return the empty record sequence at
once; otherwise clone and read the log.  Temporary-directory creation and
cloning are I/O; their outcome is the cloned argument (none when the
clone failed).  fetchTags is best-effort and its failure is ignored by
the source, so it does not appear in the pure model. -/
def GetCommitsBetweenVersions (cloned : Option Repo) (dep : Dependency) :
    Except String RangeResult :=
  if dep.currentVersion = dep.latestVersion then .ok ⟨[], .exactRange⟩
  else
    match cloned with
    | none => .error "failed to clone repository"
    | some repo => getCommitLog repo dep

/-- GitOperations.determineRepositoryURL (part_002 lines 66-98), with
strings.HasPrefix and strings.Split carried out on character lists.  The
string concatenations are grouped to the right; Go's + is left
associated, which denotes the same string. -/
def determineRepositoryURL (modulePath : String) : String :=
  if leadsWith "github.com/".toList modulePath.toList
      || leadsWith "gitlab.com/".toList modulePath.toList
      || leadsWith "bitbucket.org/".toList modulePath.toList then
    "https://" ++ (modulePath ++ ".git")
  else if leadsWith "gopkg.in/".toList modulePath.toList then
    match splitOnChar '/' modulePath.toList with
    | _ :: p1 :: [] =>
      (match splitOnChar '.' p1 with
       | pkgHead :: _ :: _ =>
         "https://" ++ ("github.com/go-" ++ (String.mk pkgHead ++
           ("/" ++ (String.mk pkgHead ++ ".git"))))
       | _ => "https://" ++ (modulePath ++ ".git"))
    | _ :: p1 :: p2 :: _ =>
      (match splitOnChar '.' p2 with
       | pkgHead :: _ :: _ =>
         "https://" ++ ("github.com/" ++ (String.mk p1 ++
           ("/" ++ (String.mk pkgHead ++ ".git"))))
       | _ => "https://" ++ (modulePath ++ ".git"))
    | _ => "https://" ++ (modulePath ++ ".git")
  else
    "https://" ++ (modulePath ++ ".git")

/-- The keywords of the fix pattern (?i)(fix|bug|patch|resolve|correct)
of AnalyzeCommits (part_002 line 316). -/
def fixKeywords : List String := ["fix", "bug", "patch", "resolve", "correct"]

/-- The keywords of the perf pattern
(?i)(perf|optimize|performance|speed|faster) (part_002 line 317). -/
def perfKeywords : List String :=
  ["perf", "optimize", "performance", "speed", "faster"]

/-- The keywords of the break pattern
(?i)(breaking|break|remove|deprecate|BREAKING) (part_002 line 318), kept
verbatim including the repeated spelling BREAKING, which the (?i) flag
makes redundant. -/
def breakKeywords : List String :=
  ["breaking", "break", "remove", "deprecate", "BREAKING"]

/-- The keywords of the feature pattern (?i)(feat|feature|add|new)
(part_002 line 319). -/
def featureKeywords : List String := ["feat", "feature", "add", "new"]

/-- pattern.MatchString msg for one category: the regular expression is
an alternation of literal keywords under (?i), so it matches exactly when
some keyword occurs in the message, comparing case-insensitively. -/
def matchesAny (keywords : List String) (msg : String) : Bool :=
  keywords.any (fun kw => occursIn (lowerChars kw) (lowerChars msg))

/-- The counting loop of AnalyzeCommits (part_002 lines 329-336): each
category counts the commits whose message its pattern matches; the
tallies are independent, a message may count for several categories. -/
def countCategory (keywords : List String) (commits : List CommitInfo) : Nat :=
  List.countP (fun c => matchesAny keywords c.message) commits

/-- CommitAnalyzer.formatRejectionReason (part_002 lines 355-357). -/
def formatRejectionReason (breakingChanges : Nat) : String :=
  "Contains " ++ toString breakingChanges ++ " breaking changes"

/-- CommitAnalyzer.formatApprovalReason (part_002 lines 360-369), taking
the two counts it reads from the counts map. -/
def formatApprovalReason (fixCount perfCount : Nat) : String :=
  String.intercalate ", "
    ((if 0 < fixCount then [toString fixCount ++ " fixes"] else []) ++
     (if 0 < perfCount then [toString perfCount ++ " optimizations"] else []))

/-- CommitAnalyzer.formatFeatureReason (part_002 lines 372-374). -/
def formatFeatureReason (featureCount : Nat) : String :=
  toString featureCount ++ " new features"

/-- CommitAnalyzer.AnalyzeCommits (part_002 lines 314-352).  The result
triple is (shouldUpdate, reason, riskLevel); AnalyzeUpdate stores the
second component as UpdateReason and the third as RejectionReason.  The
rejection and undecided branches return shouldUpdate = false with the
explanatory string in the third component. -/
def AnalyzeCommits (commits : List CommitInfo) : Bool × String × String :=
  if 0 < countCategory breakKeywords commits then
    (false, "", formatRejectionReason (countCategory breakKeywords commits))
  else if 0 < countCategory fixKeywords commits ∨
      0 < countCategory perfKeywords commits then
    (true,
     formatApprovalReason (countCategory fixKeywords commits)
       (countCategory perfKeywords commits),
     "")
  else if 0 < countCategory featureKeywords commits then
    (true, formatFeatureReason (countCategory featureKeywords commits), "")
  else
    (false, "", "No significant improvements found")

/-- A commit whose message mentions a breaking change. -/
def breakingCommit : CommitInfo :=
  ⟨"a1", "breaking: drop legacy API", "2024-01-01"⟩

/-- A commit whose message mentions removing something, with no mention
of breaking changes. -/
def removalCommit : CommitInfo :=
  ⟨"d1", "chore: remove old flags", "2024-02-02"⟩

/-- The record pair of the worked example of the spec. -/
def exampleCommits : List CommitInfo :=
  [⟨"b1", "fix: null pointer", "2024-01-01"⟩,
   ⟨"b2", "feat: add cache", "2024-01-02"⟩]

/-- A dependency whose two version strings differ. -/
def someDep : Dependency := ⟨"example.com/mod", "1.0.0", "2.0.0", true⟩

/-- A dependency already at its latest version. -/
def equalDep : Dependency := ⟨"github.com/pkg/errors", "v0.9.1", "v0.9.1", false⟩

/-- A repository on which no revision resolves and whose head walk yields
a single commit. -/
def smallRepo : Repo where
  resolve := fun _ => none
  objects := fun _ => none
  log := fun h => if h = "h0" then some [⟨"h1", "tidy up", "2024-01-01"⟩] else none
  head := some "h0"

/-- A head walk of 201 distinct commits. -/
def bigLog : List CommitInfo :=
  (List.range 201).map (fun i => ⟨toString i, "commit message", "2024-01-01"⟩)

/-- A repository on which no revision resolves and whose head walk yields
201 commits. -/
def fallbackRepo : Repo where
  resolve := fun _ => none
  objects := fun _ => none
  log := fun h => if h = "headhash" then some bigLog else none
  head := some "headhash"

/-- A repository where both versions of someDep resolve, but the walk
from the latest-version commit never meets the current-version commit:
the two tags sit on divergent histories.  The head walk is a different,
one-commit sequence, so the exact-range and recent-fallback outcomes are
distinguishable. -/
def divergedRepo : Repo where
  resolve := fun s =>
    if s = "refs/tags/1.0.0" then some "f0"
    else if s = "refs/tags/2.0.0" then some "t0" else none
  objects := fun h =>
    if h = "f0" then some ⟨"f0", "old release", "2023-01-01"⟩
    else if h = "t0" then some ⟨"t0", "new release", "2024-01-01"⟩ else none
  log := fun h =>
    if h = "t0" then
      some [⟨"t0", "new release", "2024-01-01"⟩,
            ⟨"t1", "rework core", "2023-12-01"⟩]
    else if h = "h0" then some [⟨"h9", "head work", "2024-03-01"⟩] else none
  head := some "h0"

/-- A repository on which exactly the spelling refs/tags/1.2.3
resolves. -/
def taggedRepo : Repo where
  resolve := fun s => if s = "refs/tags/1.2.3" then some "abc123" else none
  objects := fun _ => none
  log := fun _ => none
  head := none

/-- The between-hashes walk collects at most maxCommits minus the number
already processed. -/
theorem collectBetween_length_le (f : String) (m : Nat) :
    ∀ (l : List CommitInfo) (p : Nat),
      (collectBetween f m p l).length ≤ m - p := by
  intro l
  induction l with
  | nil => intro p; simp [collectBetween]
  | cons c rest ih =>
    intro p
    by_cases h1 : c.hash = f
    · simp [collectBetween, h1]
    · by_cases h2 : m ≤ p
      · simp [collectBetween, h1, h2]
      · have hrec := ih (p + 1)
        simp only [collectBetween, h1, h2, if_false, List.length_cons]
        omega

/-- When the boundary hash never occurs in the walked sequence, the
between-hashes walk is plain truncation of the sequence. -/
theorem collectBetween_eq_take (f : String) (m : Nat) :
    ∀ (l : List CommitInfo) (p : Nat), f ∉ l.map (fun c => c.hash) →
      collectBetween f m p l = l.take (m - p) := by
  intro l
  induction l with
  | nil => intro p _; simp [collectBetween]
  | cons c rest ih =>
    intro p hf
    simp only [List.map_cons, List.mem_cons, not_or] at hf
    have h1 : ¬ c.hash = f := fun e => hf.1 e.symm
    by_cases h2 : m ≤ p
    · have : m - p = 0 := by omega
      simp [collectBetween, h1, h2, this]
    · obtain ⟨k, hk⟩ : ∃ k, m - p = k + 1 := ⟨m - (p + 1), by omega⟩
      have hk2 : m - (p + 1) = k := by omega
      simp only [collectBetween, h1, h2, if_false, hk, List.take_succ_cons]
      rw [ih (p + 1) hf.2, hk2]

/-- The head walk collects at most limit minus the number already
processed. -/
theorem collectLimited_length_le (m : Nat) :
    ∀ (l : List CommitInfo) (p : Nat),
      (collectLimited m p l).length ≤ m - p := by
  intro l
  induction l with
  | nil => intro p; simp [collectLimited]
  | cons c rest ih =>
    intro p
    by_cases h2 : m ≤ p
    · simp [collectLimited, h2]
    · have hrec := ih (p + 1)
      simp only [collectLimited, h2, if_false, List.length_cons]
      omega

/-- A successful between-hashes walk returns at most 200 records. -/
theorem getCommitsBetweenHashes_ok_length (repo : Repo)
    (fromHash toHash : String) (l : List CommitInfo)
    (h : getCommitsBetweenHashes repo fromHash toHash = .ok l) :
    l.length ≤ 200 := by
  unfold getCommitsBetweenHashes at h
  split at h
  · exact absurd h (by simp)
  · split at h
    · exact absurd h (by simp)
    · split at h
      · exact absurd h (by simp)
      · cases h
        simpa using collectBetween_length_le _ 200 _ 0

/-- A successful recent walk returns at most limit records. -/
theorem getRecentCommits_ok_length (repo : Repo) (limit : Nat)
    (l : List CommitInfo) (h : getRecentCommits repo limit = .ok l) :
    l.length ≤ limit := by
  unfold getRecentCommits at h
  split at h
  · exact absurd h (by simp)
  · split at h
    · exact absurd h (by simp)
    · cases h
      simpa using collectLimited_length_le limit _ 0

/-- A successful recent-fallback branch of getCommitLog is tagged
recentFallback and holds at most 300 records. -/
theorem fallback_branch_ok (repo : Repo) (r : RangeResult)
    (h : (getRecentCommits repo 300).map
          (fun l => RangeResult.mk l RangeTag.recentFallback) = .ok r) :
    r.tag = RangeTag.recentFallback ∧ r.records.length ≤ 300 := by
  cases hr : getRecentCommits repo 300 with
  | error e => rw [hr] at h; exact absurd h (by simp [Except.map])
  | ok l =>
    rw [hr] at h
    simp only [Except.map] at h
    cases h
    exact ⟨rfl, getRecentCommits_ok_length repo 300 l hr⟩

/-- Any successful getCommitLog result respects the cap of its branch:
200 records on the exact-range branch, 300 on the recent-fallback
branch. -/
theorem getCommitLog_ok_caps (repo : Repo) (dep : Dependency)
    (r : RangeResult) (h : getCommitLog repo dep = .ok r) :
    (r.tag = RangeTag.exactRange → r.records.length ≤ 200) ∧
    (r.tag = RangeTag.recentFallback → r.records.length ≤ 300) := by
  unfold getCommitLog at h
  split at h
  · split at h
    next commits hb =>
      cases h
      exact ⟨fun _ => getCommitsBetweenHashes_ok_length _ _ _ _ hb,
        fun he => absurd he (by simp)⟩
    next e hb =>
      obtain ⟨htag, hlen⟩ := fallback_branch_ok repo r h
      exact ⟨fun he => absurd (htag ▸ he) (by simp), fun _ => hlen⟩
  · obtain ⟨htag, hlen⟩ := fallback_branch_ok repo r h
    exact ⟨fun he => absurd (htag ▸ he) (by simp), fun _ => hlen⟩

/-- The break pattern matches a message exactly when one of its four
distinct keywords occurs in the message, comparing case-insensitively
(the fifth source keyword BREAKING lowercases to breaking and adds
nothing). -/
theorem matchesAny_break_iff (msg : String) :
    matchesAny breakKeywords msg = true ↔
      (occursIn "breaking".toList (lowerChars msg) = true ∨
       occursIn "break".toList (lowerChars msg) = true ∨
       occursIn "remove".toList (lowerChars msg) = true ∨
       occursIn "deprecate".toList (lowerChars msg) = true) := by
  have e1 : lowerChars "breaking" = "breaking".toList := by decide
  have e2 : lowerChars "break" = "break".toList := by decide
  have e3 : lowerChars "remove" = "remove".toList := by decide
  have e4 : lowerChars "deprecate" = "deprecate".toList := by decide
  have e5 : lowerChars "BREAKING" = "breaking".toList := by decide
  simp only [matchesAny, breakKeywords, List.any_cons, List.any_nil,
    Bool.or_false, Bool.or_eq_true, e1, e2, e3, e4, e5]
  tauto

/-- Claim C1, counterexample to the stated reason text: on a single
breaking-change record the classifier rejects, but the reason string it
produces is capitalized "Contains 1 breaking changes", not the claimed
"contains 1 breaking changes". -/
theorem c1_counterexample :
    AnalyzeCommits [breakingCommit] ≠
      (false, "", "contains 1 breaking changes") := by
  decide

/-- Claim C1 (amended): for every record sequence with at least one
breaking-change match, AnalyzeCommits rejects — shouldUpdate is false
and the rejection reason is "Contains N breaking changes" with N the
breaking-change count — regardless of how many fix, performance, or
feature keywords co-occur (the statement quantifies over all record
sequences and constrains only the breaking count). -/
theorem c1_break_forces_reject (commits : List CommitInfo)
    (h : 0 < countCategory breakKeywords commits) :
    AnalyzeCommits commits =
      (false, "",
       "Contains " ++ toString (countCategory breakKeywords commits) ++
         " breaking changes") := by
  unfold AnalyzeCommits
  rw [if_pos h]
  rfl

/-- Claim C1, witness: the amended theorem applied to a concrete
one-record sequence containing a breaking-change message. -/
theorem c1_break_forces_reject_witness :
    AnalyzeCommits [breakingCommit] =
      (false, "",
       "Contains " ++ toString (countCategory breakKeywords [breakingCommit]) ++
         " breaking changes") :=
  c1_break_forces_reject [breakingCommit] (by decide)

/-- Claim C8, counterexample to the stated reason text: on the empty
record sequence the classifier is undecided, but the reason string is
capitalized "No significant improvements found", not the claimed
"no significant improvements found". -/
theorem c8_counterexample :
    AnalyzeCommits [] ≠ (false, "", "no significant improvements found") := by
  decide

/-- Claim C8 (amended): for every record sequence in which no message
matches any of the four category patterns, AnalyzeCommits returns the
undecided outcome — shouldUpdate false, empty update reason, and the
string "No significant improvements found"; the empty sequence satisfies
the hypothesis vacuously and falls into this case. -/
theorem c8_no_match_undecided (commits : List CommitInfo)
    (h : ∀ c ∈ commits,
      matchesAny fixKeywords c.message = false ∧
      matchesAny perfKeywords c.message = false ∧
      matchesAny breakKeywords c.message = false ∧
      matchesAny featureKeywords c.message = false) :
    AnalyzeCommits commits = (false, "", "No significant improvements found") := by
  have hbreak : countCategory breakKeywords commits = 0 :=
    List.countP_eq_zero.mpr (fun c hc => by simp [(h c hc).2.2.1])
  have hfix : countCategory fixKeywords commits = 0 :=
    List.countP_eq_zero.mpr (fun c hc => by simp [(h c hc).1])
  have hperf : countCategory perfKeywords commits = 0 :=
    List.countP_eq_zero.mpr (fun c hc => by simp [(h c hc).2.1])
  have hfeat : countCategory featureKeywords commits = 0 :=
    List.countP_eq_zero.mpr (fun c hc => by simp [(h c hc).2.2.2])
  unfold AnalyzeCommits
  rw [hbreak, hfix, hperf, hfeat]
  simp

/-- Claim C8, witness: the amended theorem applied to the empty record
sequence. -/
theorem c8_no_match_undecided_witness :
    AnalyzeCommits [] = (false, "", "No significant improvements found") :=
  c8_no_match_undecided [] (by simp)

/-- Claim C9: on the worked example — a fix record and a feature record —
the classifier counts fix 1, feature 1, break 0 and approves with the
reason "1 fixes"; and in general, whenever the breaking count is zero and
the fix or the performance count is positive, the result is approval with
the comma-joined summary built from exactly the fix and performance
counts, so the feature count does not contribute to the reason. -/
theorem c9_example_and_approval_reason :
    AnalyzeCommits exampleCommits = (true, "1 fixes", "") ∧
    countCategory fixKeywords exampleCommits = 1 ∧
    countCategory featureKeywords exampleCommits = 1 ∧
    countCategory breakKeywords exampleCommits = 0 ∧
    ∀ commits : List CommitInfo,
      countCategory breakKeywords commits = 0 →
      (0 < countCategory fixKeywords commits ∨
       0 < countCategory perfKeywords commits) →
      AnalyzeCommits commits =
        (true,
         formatApprovalReason (countCategory fixKeywords commits)
           (countCategory perfKeywords commits),
         "") := by
  refine ⟨by decide, by decide, by decide, by decide, ?_⟩
  intro commits hb hfp
  unfold AnalyzeCommits
  rw [hb]
  rw [if_neg (by omega)]
  rw [if_pos hfp]

/-- Claim C9, witness: the general approval statement applied to the
worked example itself. -/
theorem c9_example_and_approval_reason_witness :
    AnalyzeCommits exampleCommits =
      (true,
       formatApprovalReason (countCategory fixKeywords exampleCommits)
         (countCategory perfKeywords exampleCommits),
       "") :=
  c9_example_and_approval_reason.2.2.2.2 exampleCommits (by decide)
    (Or.inl (by decide))

/-- Claim C10: the breaking-change pattern matches a message exactly when
one of the substrings breaking, break, remove, deprecate occurs in it
case-insensitively; consequently every record sequence containing a
message that mentions remove or deprecate anywhere is rejected — the
breaking count is positive and AnalyzeCommits returns shouldUpdate false
with the rejection reason for that count. -/
theorem c10_remove_deprecate_reject :
    (∀ msg : String,
      matchesAny breakKeywords msg = true ↔
        (occursIn "breaking".toList (lowerChars msg) = true ∨
         occursIn "break".toList (lowerChars msg) = true ∨
         occursIn "remove".toList (lowerChars msg) = true ∨
         occursIn "deprecate".toList (lowerChars msg) = true)) ∧
    ∀ commits : List CommitInfo,
      (∃ c ∈ commits,
        occursIn "remove".toList (lowerChars c.message) = true ∨
        occursIn "deprecate".toList (lowerChars c.message) = true) →
      0 < countCategory breakKeywords commits ∧
      AnalyzeCommits commits =
        (false, "",
         formatRejectionReason (countCategory breakKeywords commits)) := by
  refine ⟨matchesAny_break_iff, ?_⟩
  intro commits ⟨c, hc, hor⟩
  have hmatch : matchesAny breakKeywords c.message = true :=
    (matchesAny_break_iff c.message).mpr (by tauto)
  have hpos : 0 < countCategory breakKeywords commits :=
    List.countP_pos_iff.mpr ⟨c, hc, by simp [hmatch]⟩
  refine ⟨hpos, ?_⟩
  unfold AnalyzeCommits
  rw [if_pos hpos]

/-- Claim C10, witness: a record whose message merely removes old flags —
no mention of breaking changes — makes the classifier reject. -/
theorem c10_remove_deprecate_reject_witness :
    0 < countCategory breakKeywords [removalCommit] ∧
    AnalyzeCommits [removalCommit] =
      (false, "",
       formatRejectionReason (countCategory breakKeywords [removalCommit])) :=
  c10_remove_deprecate_reject.2 [removalCommit]
    ⟨removalCommit, by simp, Or.inl (by decide)⟩

set_option maxRecDepth 8000 in
/-- Claim C2, counterexample to the 200 cap: on a repository whose
version strings do not resolve and whose head walk has 201 commits, the
extraction succeeds on the recent-fallback path and returns all 201
records — the fallback requests up to 300 records, so the returned
sequence exceeds 200. -/
theorem c2_counterexample :
    (GetCommitsBetweenVersions (some fallbackRepo) someDep).map
        (fun r => r.records.length) = .ok 201 ∧
    ¬ (201 ≤ 200) := by
  constructor
  · decide
  · decide

/-- Claim C2 (amended): every successful extraction is bounded, but the
bound depends on the branch: a result of the exact-range branch has at
most 200 records, while a result of the recent-fallback branch has at
most 300 records, because getCommitLog invokes the recent walk with
limit 300.  Records are truncated from the front of the walk order
(newest first) in both branches. -/
theorem c2_length_caps (cloned : Option Repo) (dep : Dependency)
    (r : RangeResult)
    (h : GetCommitsBetweenVersions cloned dep = .ok r) :
    (r.tag = RangeTag.exactRange → r.records.length ≤ 200) ∧
    (r.tag = RangeTag.recentFallback → r.records.length ≤ 300) := by
  unfold GetCommitsBetweenVersions at h
  split at h
  · cases h
    exact ⟨fun _ => by simp, fun _ => by simp⟩
  · cases cloned with
    | none => exact absurd h (by simp)
    | some repo => exact getCommitLog_ok_caps repo dep r h

/-- Claim C2, witness: the amended bound applied to the concrete
repository whose fallback walk yields one record. -/
theorem c2_length_caps_witness :
    (RangeResult.mk [CommitInfo.mk "h1" "tidy up" "2024-01-01"]
        RangeTag.recentFallback).records.length ≤ 300 :=
  (c2_length_caps (some smallRepo) someDep
      (RangeResult.mk [CommitInfo.mk "h1" "tidy up" "2024-01-01"]
        RangeTag.recentFallback)
      (by decide)).2 rfl

/-- Claim C3: when either version string fails to resolve under all four
reference spellings, getCommitLog does not turn the miss into an error:
it returns whatever the recent walk from the head reference yields — here
assumed to succeed with some record sequence — as a result of the
recent-fallback branch. -/
theorem c3_miss_is_not_an_error (repo : Repo) (dep : Dependency)
    (records : List CommitInfo)
    (hmiss : resolveVersionRef repo dep.currentVersion = none ∨
             resolveVersionRef repo dep.latestVersion = none)
    (hrecent : getRecentCommits repo 300 = .ok records) :
    getCommitLog repo dep = .ok (RangeResult.mk records RangeTag.recentFallback) := by
  unfold getCommitLog
  rcases hmiss with h | h
  · rw [h]
    cases hlat : resolveVersionRef repo dep.latestVersion <;>
      simp [hrecent, Except.map]
  · cases hcur : resolveVersionRef repo dep.currentVersion <;>
      rw [h] <;> simp [hrecent, Except.map]

/-- Claim C3, witness: on the repository where nothing resolves and the
head walk yields one commit, extraction succeeds with that commit on the
recent-fallback branch. -/
theorem c3_miss_is_not_an_error_witness :
    getCommitLog smallRepo someDep =
      .ok (RangeResult.mk [CommitInfo.mk "h1" "tidy up" "2024-01-01"]
        RangeTag.recentFallback) :=
  c3_miss_is_not_an_error smallRepo someDep
    [CommitInfo.mk "h1" "tidy up" "2024-01-01"]
    (Or.inl (by decide)) (by decide)

/-- Claim C4, counterexample: on a repository where both versions resolve
but the walk from the latest-version commit never reaches the
current-version commit (divergent histories), the primary walk does not
fail — extraction returns the walked records on the exact-range branch,
and in particular does not return the head-walk records on the
recent-fallback branch, contrary to the claim. -/
theorem c4_counterexample :
    getCommitLog divergedRepo someDep =
      .ok (RangeResult.mk
        [CommitInfo.mk "t0" "new release" "2024-01-01",
         CommitInfo.mk "t1" "rework core" "2023-12-01"]
        RangeTag.exactRange) ∧
    getCommitLog divergedRepo someDep ≠
      .ok (RangeResult.mk [CommitInfo.mk "h9" "head work" "2024-03-01"]
        RangeTag.recentFallback) := by
  constructor
  · decide
  · decide

/-- Claim C4 (amended): when both nodes resolve, both commit objects
exist and the log from the latest-version commit is readable but never
visits the current-version commit, the walk succeeds: extraction returns
the walk truncated to 200 records on the exact-range branch.  The
head-reference fallback is not taken for divergent histories; it is taken
only when resolution misses or the walk itself returns an error. -/
theorem c4_divergent_walk_succeeds (repo : Repo) (dep : Dependency)
    (cur lat : String) (fromCommit toCommit : CommitInfo)
    (entries : List CommitInfo)
    (hcur : resolveVersionRef repo dep.currentVersion = some cur)
    (hlat : resolveVersionRef repo dep.latestVersion = some lat)
    (hfrom : repo.objects cur = some fromCommit)
    (hto : repo.objects lat = some toCommit)
    (hlog : repo.log toCommit.hash = some entries)
    (hdiv : fromCommit.hash ∉ entries.map (fun c => c.hash)) :
    getCommitLog repo dep =
      .ok (RangeResult.mk (entries.take 200) RangeTag.exactRange) := by
  have ht := collectBetween_eq_take fromCommit.hash 200 entries 0 hdiv
  simp only [Nat.sub_zero] at ht
  have hbet : getCommitsBetweenHashes repo cur lat = .ok (entries.take 200) := by
    unfold getCommitsBetweenHashes
    simp only [hfrom, hto, hlog, ht]
  unfold getCommitLog
  simp only [hcur, hlat, hbet]

/-- Claim C4, witness: the amended statement applied to the concrete
divergent repository. -/
theorem c4_divergent_walk_succeeds_witness :
    getCommitLog divergedRepo someDep =
      .ok (RangeResult.mk
        (List.take 200
          [CommitInfo.mk "t0" "new release" "2024-01-01",
           CommitInfo.mk "t1" "rework core" "2023-12-01"])
        RangeTag.exactRange) :=
  c4_divergent_walk_succeeds divergedRepo someDep "f0" "t0"
    (CommitInfo.mk "f0" "old release" "2023-01-01")
    (CommitInfo.mk "t0" "new release" "2024-01-01")
    [CommitInfo.mk "t0" "new release" "2024-01-01",
     CommitInfo.mk "t1" "rework core" "2023-12-01"]
    (by decide) (by decide) (by decide) (by decide) (by decide) (by decide)

/-- Claim C5: when a dependency's current version string equals its
latest version string, extraction returns the empty exact-range result
at once — the equality test is the first statement of
GetCommitsBetweenVersions, so the result is the same whether or not a
clone is even available (the cloned argument is arbitrary, including
none), and no resolution or walk is attempted. -/
theorem c5_equal_versions_short_circuit (cloned : Option Repo)
    (dep : Dependency) (h : dep.currentVersion = dep.latestVersion) :
    GetCommitsBetweenVersions cloned dep =
      .ok (RangeResult.mk [] RangeTag.exactRange) := by
  unfold GetCommitsBetweenVersions
  rw [if_pos h]

/-- Claim C5, witness: a dependency already at its latest version yields
the empty exact-range result even with no repository at hand. -/
theorem c5_equal_versions_short_circuit_witness :
    GetCommitsBetweenVersions none equalDep =
      .ok (RangeResult.mk [] RangeTag.exactRange) :=
  c5_equal_versions_short_circuit none equalDep rfl

/-- Claim C6: resolveVersionRef fails exactly when all four reference
spellings fail to resolve, and otherwise returns the hash of the first
spelling that resolves in the fixed priority order refs/tags/v, v-tagged
refs/tags/vv, bare v, bare vv. -/
theorem c6_resolution_order (repo : Repo) (v : String) :
    (resolveVersionRef repo v = none ↔
      repo.resolve ("refs/tags/" ++ v) = none ∧
      repo.resolve ("refs/tags/v" ++ v) = none ∧
      repo.resolve v = none ∧
      repo.resolve ("v" ++ v) = none) ∧
    (∀ h : String, repo.resolve ("refs/tags/" ++ v) = some h →
      resolveVersionRef repo v = some h) ∧
    (∀ h : String, repo.resolve ("refs/tags/" ++ v) = none →
      repo.resolve ("refs/tags/v" ++ v) = some h →
      resolveVersionRef repo v = some h) ∧
    (∀ h : String, repo.resolve ("refs/tags/" ++ v) = none →
      repo.resolve ("refs/tags/v" ++ v) = none →
      repo.resolve v = some h →
      resolveVersionRef repo v = some h) ∧
    (∀ h : String, repo.resolve ("refs/tags/" ++ v) = none →
      repo.resolve ("refs/tags/v" ++ v) = none →
      repo.resolve v = none →
      repo.resolve ("v" ++ v) = some h →
      resolveVersionRef repo v = some h) := by
  rcases e1 : repo.resolve ("refs/tags/" ++ v) with _ | h1 <;>
    rcases e2 : repo.resolve ("refs/tags/v" ++ v) with _ | h2 <;>
      rcases e3 : repo.resolve v with _ | h3 <;>
        rcases e4 : repo.resolve ("v" ++ v) with _ | h4 <;>
          simp [resolveVersionRef, versionRefs, tryRefs, e1, e2, e3, e4]

/-- Claim C6, witness: on a repository where exactly refs/tags/1.2.3
resolves, resolveVersionRef returns its hash via the first spelling. -/
theorem c6_resolution_order_witness :
    resolveVersionRef taggedRepo "1.2.3" = some "abc123" :=
  (c6_resolution_order taggedRepo "1.2.3").2.1 "abc123" (by decide)

/-- Claim C7: determineRepositoryURL is a total Lean function, so it
produces a URL for every module path — every branch yields a string of
the shape https:// followed by a best-effort remainder — and on the
two-segment legacy path gopkg.in/yaml.v3 it produces the rewritten
orphan-namespace URL https://github.com/go-yaml/yaml.git, using the
package name twice. -/
theorem c7_locator_total_and_gopkg :
    determineRepositoryURL "gopkg.in/yaml.v3" =
      "https://github.com/go-yaml/yaml.git" ∧
    ∀ modulePath : String, ∃ rest : String,
      determineRepositoryURL modulePath = "https://" ++ rest := by
  constructor
  · decide
  · intro modulePath
    unfold determineRepositoryURL
    repeat' split
    all_goals exact ⟨_, rfl⟩

end Gupdeps
